import Mathlib

/-!
# HealthBridge backend: shallow embedding and verification

Shallow embedding of the HealthBridge MERN backend's appointment-booking
subsystem and auth middleware, translated from the code snippets in
`src/backend/README.md` (the rebuild guide that carries the controller and
middleware sources) and `src/backend/server.js`.  Operations the repository
only describes in prose (the cancellation flow, the dashboard aggregation,
and the doctor-existence/availability guards of `bookAppointment`) are
modelled from the specification and marked as such in their doc comments.

JS objects become Lean structures; the Mongo-backed collections become
lists; the `slots_booked` object (date string → array of time strings)
becomes an association list; machine behaviour such as thrown exceptions
and handlers that fall through without responding is made explicit in
result types.
-/

namespace HealthBridge

/-- A doctor record (`models/doctorModel.js`): we keep the fields the
booking subsystem reads — `_id`, the `available` flag, the consultation
`fees`, and the `slots_booked` ledger mapping a date string to the array
of already-booked time strings. -/
structure Doctor where
  _id : String
  available : Bool
  fees : Nat
  slots_booked : List (String × List String)
  deriving Repr, DecidableEq

/-- An appointment record (`models/appointmentModel.js`): denormalized
booking transaction with three independent status flags. -/
structure Appointment where
  _id : Nat
  userId : String
  docId : String
  slotDate : String
  slotTime : String
  amount : Nat
  cancelled : Bool
  payment : Bool
  isCompleted : Bool
  deriving Repr, DecidableEq

/-- A user record (`models/userModel.js`), reduced to the fields the login
flow reads: `_id`, `email` and the stored bcrypt hash in `password`. -/
structure User where
  _id : String
  email : String
  password : String
  deriving Repr, DecidableEq

/-- The database state: the three Mongo collections, plus a counter that
stands in for Mongo's fresh `_id` generation for appointments. -/
structure DB where
  doctors : List Doctor
  users : List User
  appointments : List Appointment
  nextAptId : Nat
  deriving Repr, DecidableEq

/-- `slots_booked[slotDate]` with JS semantics: an absent key reads as
`undefined`, which the source guards with `?.includes` and
`slots_booked[slotDate] || []`; both give the empty array, so the lookup
totalises to `[]`. -/
def ledgerTimes (l : List (String × List String)) (date : String) :
    List String :=
  match l.find? (fun e => e.1 == date) with
  | some e => e.2
  | none => []

/-- `slots_booked[slotDate] = ts`: overwrite the entry for `date` when one
exists, otherwise append a fresh entry. -/
def ledgerSet (l : List (String × List String)) (date : String)
    (ts : List String) : List (String × List String) :=
  if l.any (fun e => e.1 == date) then
    l.map (fun e => if e.1 == date then (e.1, ts) else e)
  else
    l ++ [(date, ts)]

/-- Cancellation step "remove `time` from the doctor's
`slots_booked[date]` array": a filter on the date's entry; when the date
entry is absent nothing happens (best-effort cleanup). -/
def ledgerRemove (l : List (String × List String)) (date time : String) :
    List (String × List String) :=
  l.map (fun e =>
    if e.1 == date then (e.1, e.2.filter (fun t => !(t == time))) else e)

/-- `doctorModel.findById(docId)` over the doctors collection. -/
def findDoctor (db : DB) (docId : String) : Option Doctor :=
  db.doctors.find? (fun d => d._id == docId)

/-- `doctorModel.findByIdAndUpdate(docId, { slots_booked })`: replace the
stored ledger of the matching doctor with the caller's local copy. -/
def writeDoctorSlots (db : DB) (docId : String)
    (l : List (String × List String)) : DB :=
  { db with
    doctors := db.doctors.map (fun d =>
      if d._id == docId then { d with slots_booked := l } else d) }

/-- Failure modes of `bookAppointment`, named as in the specification
(`Slot Not Available` in the source is `SlotTaken`). -/
inductive BookErr
  | DoctorNotFound
  | DoctorUnavailable
  | SlotTaken
  deriving Repr, DecidableEq

/-- `bookAppointment` (`src/backend/README.md` lines 432–450).  The slot
check, the push into the local `slots_booked` copy, the
`findByIdAndUpdate` write-back and the appointment creation follow the
snippet.  Modelled from the spec: the abridged snippet omits book step 1's
guards, so the `DoctorNotFound` branch for an absent doctor and the
`DoctorUnavailable` branch for `available == false` follow §4.3 of the
specification.  The post-state is returned in every case, so that the
error paths' non-mutation is an explicit fact rather than a convention. -/
def bookAppointment (db : DB) (userId docId slotDate slotTime : String) :
    DB × Option BookErr :=
  match findDoctor db docId with
  | none => (db, some BookErr.DoctorNotFound)
  | some docData =>
    if docData.available = false then
      (db, some BookErr.DoctorUnavailable)
    else
      let slots_booked := docData.slots_booked
      let times := ledgerTimes slots_booked slotDate
      if times.contains slotTime then
        (db, some BookErr.SlotTaken)
      else
        let newLedger := ledgerSet slots_booked slotDate (times ++ [slotTime])
        let db1 := writeDoctorSlots db docId newLedger
        let apt : Appointment :=
          { _id := db.nextAptId, userId := userId, docId := docId
            slotDate := slotDate, slotTime := slotTime
            amount := docData.fees
            cancelled := false, payment := false, isCompleted := false }
        ({ db1 with
            appointments := db1.appointments ++ [apt]
            nextAptId := db.nextAptId + 1 }, none)

/-- Failure mode of cancellation. -/
inductive CancelErr
  | NotFound
  deriving Repr, DecidableEq

/-- Set `cancelled = true` on the appointment with the given id
(Mongo's `findByIdAndUpdate(appointmentId, { cancelled: true })` over the
appointments collection). -/
def setCancelled (l : List Appointment) (appointmentId : Nat) :
    List Appointment :=
  l.map (fun a =>
    if a._id == appointmentId then { a with cancelled := true } else a)

/-- Modelled from the spec: the cancellation controller code is not under
`src/`; only the prose "Cancellation Process" of `src/backend/README.md`
(lines 993–997) and §4.3 of the specification describe it.  Steps: find
the appointment by id, failing `NotFound` when absent; set
`cancelled = true` unconditionally (idempotent no-op on an
already-cancelled appointment); remove the time from the doctor's
`slots_booked[date]` array, skipping silently when the doctor record or
the date entry no longer exists. -/
def cancelAppointment (db : DB) (appointmentId : Nat) :
    DB × Option CancelErr :=
  match db.appointments.find? (fun a => a._id == appointmentId) with
  | none => (db, some CancelErr.NotFound)
  | some apt =>
    let db1 := { db with
      appointments := setCancelled db.appointments appointmentId }
    match findDoctor db1 apt.docId with
    | none => (db1, none)
    | some doc =>
      (writeDoctorSlots db1 apt.docId
        (ledgerRemove doc.slots_booked apt.slotDate apt.slotTime), none)

/-! ## JWT and the auth middleware -/

/-- A decoded JWT payload.  User and doctor logins sign the object
`{ id: record._id }`, so the decoded value carries an `id` field;
the admin login signs a plain string (`email + password`), so the decoded
value is a string with no `id` field. -/
inductive Payload
  | obj (id : String)
  | str (s : String)
  deriving Repr, DecidableEq

/-- A signed token, modelled as its payload together with the secret it
was signed with; `jwt.verify` succeeds exactly when the verifying secret
matches the signing secret. -/
structure Jwt where
  payload : Payload
  secret : String
  deriving Repr, DecidableEq

/-- `jwt.sign({ id }, JWT_SECRET)`: the token shape produced by
`registerUser`/`loginUser`, and likewise by the doctor login (the guide's
JWT checkpoint and controller summaries use the identical
`{ id: _id }` claim for both principal kinds — no kind discriminator is
embedded). -/
def signIdToken (jwtSecret id : String) : Jwt :=
  { payload := Payload.obj id, secret := jwtSecret }

/-- `token_decode.id`: reading the `id` field of the decoded payload; on a
string payload the field is `undefined`, i.e. `none`. -/
def payloadId : Payload → Option String
  | Payload.obj i => some i
  | Payload.str _ => none

/-- What an auth middleware does with a request: send a JSON response
(`res.json({success, message})`), pass control to the handler
(`next()`, with the id it attached to `req.body`, `none` standing for
`undefined`), or raise an uncaught exception out of `jwt.verify`. -/
inductive AuthOutcome
  | json (success : Bool) (message : String)
  | next (attachedId : Option String)
  | thrown (message : String)
  deriving Repr, DecidableEq

/-- `authUser` (`src/backend/README.md` lines 309–321): a missing `token`
header is answered with a failure JSON; `jwt.verify` runs inside
`try/catch`, so a bad signature is also answered with a failure JSON
carrying the error's message; on success the decoded `id` is attached and
`next()` is called.  No principal-kind check is performed. -/
def authUser (token : Option Jwt) (jwtSecret : String) : AuthOutcome :=
  match token with
  | none => AuthOutcome.json false "Not Authorized Login Again"
  | some t =>
    if t.secret == jwtSecret then
      AuthOutcome.next (payloadId t.payload)
    else
      AuthOutcome.json false "invalid signature"

/-- `authAdmin` (`src/backend/README.md` lines 332–339): `jwt.verify` is
called on the raw `atoken` header with no `try/catch` and no
missing-header check, so a missing header or a bad signature escapes as a
thrown exception; a decoded payload unequal to
`ADMIN_EMAIL + ADMIN_PASSWORD` is answered with a failure JSON. -/
def authAdmin (atoken : Option Jwt)
    (jwtSecret adminEmail adminPassword : String) : AuthOutcome :=
  match atoken with
  | none => AuthOutcome.thrown "jwt must be provided"
  | some t =>
    if t.secret == jwtSecret then
      if t.payload == Payload.str (adminEmail ++ adminPassword) then
        AuthOutcome.next none
      else
        AuthOutcome.json false "Not Authorized"
    else
      AuthOutcome.thrown "invalid signature"

/-- `authDoctor` (`src/backend/README.md` lines 344–351): like `authUser`
but on the `dtoken` header, with no missing-header check and no
`try/catch`, so failures of `jwt.verify` escape as thrown exceptions. -/
def authDoctor (dtoken : Option Jwt) (jwtSecret : String) : AuthOutcome :=
  match dtoken with
  | none => AuthOutcome.thrown "jwt must be provided"
  | some t =>
    if t.secret == jwtSecret then
      AuthOutcome.next (payloadId t.payload)
    else
      AuthOutcome.thrown "invalid signature"

/-! ## Login -/

/-- Model of `bcrypt.hash` with a fixed salt: an injective tagging of the
plaintext, enough to make `bcrypt.compare` behave as the library does
(compare succeeds exactly on the hashed plaintext). -/
def bcryptHash (plaintext : String) : String :=
  "bcrypt$" ++ plaintext

/-- Model of `bcrypt.compare(password, storedHash)`. -/
def bcryptCompare (plaintext hash : String) : Bool :=
  hash == bcryptHash plaintext

/-- What a login handler does: answer `{success:true, token}`, answer a
failure JSON, fall through without sending any response, or raise an
uncaught exception. -/
inductive LoginOutcome
  | jsonToken (token : Jwt)
  | jsonFailure (message : String)
  | noResponse
  | thrown (message : String)
  deriving Repr, DecidableEq

/-- `loginUser` (`src/backend/README.md` lines 416–425): look the user up
by email and compare the password.  The snippet has no null check on the
lookup — an unknown email makes `user.password` a property read on
`null`, a thrown `TypeError` — and the `if (isMatch)` has no `else`
branch, so a wrong password sends no response at all. -/
def loginUser (db : DB) (jwtSecret email password : String) :
    LoginOutcome :=
  match db.users.find? (fun u => u.email == email) with
  | none => LoginOutcome.thrown "Cannot read properties of null"
  | some user =>
    if bcryptCompare password user.password then
      LoginOutcome.jsonToken (signIdToken jwtSecret user._id)
    else
      LoginOutcome.noResponse

/-! ## Dashboard aggregation -/

/-- Modelled from the spec: the `doctorDashboard` controller code is not
under `src/` (the guide only lists it as "Calculates earnings, patient
count, appointment stats", lines 503–508); §4.3 of the specification
fixes the earnings figure as the sum of `amount` over non-cancelled,
payment-settled appointments, computed by scanning the appointment ledger
filtered by doctor id — no persisted running total.  The scan is written
as the accumulating recursion the controller's loop performs. -/
def doctorEarnings (apts : List Appointment) (docId : String) : Nat :=
  match apts with
  | [] => 0
  | a :: rest =>
    (if a.docId == docId && !a.cancelled && a.payment then a.amount else 0)
      + doctorEarnings rest docId

/-- Modelled from the spec: the admin dashboard computes the same
earnings sum over the whole appointment ledger, unfiltered
(§4.3: "or unfiltered for admin"). -/
def adminEarnings (apts : List Appointment) : Nat :=
  match apts with
  | [] => 0
  | a :: rest =>
    (if !a.cancelled && a.payment then a.amount else 0) + adminEarnings rest

/-! ## Concurrent booking: the unguarded read-modify-write

`bookAppointment` reads the doctor document, checks and extends its local
copy of `slots_booked`, and writes the copy back with
`findByIdAndUpdate` — with no transaction, lock or conditional update.
Concurrent calls therefore decompose into a read step (the `findById`)
and a commit step (the local check plus the write-back), and the database
may interleave the steps of different calls. -/

/-- The arguments of one `book` call. -/
structure BookCall where
  userId : String
  docId : String
  slotDate : String
  slotTime : String
  deriving Repr, DecidableEq

/-- One call in flight: its arguments together with the doctor document
snapshot its `findById` returned (the local `docData`). -/
structure InFlight where
  call : BookCall
  docSnapshot : Option Doctor
  deriving Repr, DecidableEq

/-- The read step of a `book` call: `doctorModel.findById` against the
current database. -/
def readStep (db : DB) (c : BookCall) : InFlight :=
  { call := c, docSnapshot := findDoctor db c.docId }

/-- The commit step of a `book` call: the availability and slot checks on
the snapshot taken at read time, then the write-back of the locally
extended ledger and the appointment insert.  Identical to the tail of
`bookAppointment`, but running against a database that other calls may
have changed since the read. -/
def commitStep (db : DB) (f : InFlight) : DB × Option BookErr :=
  match f.docSnapshot with
  | none => (db, some BookErr.DoctorNotFound)
  | some docData =>
    if docData.available = false then
      (db, some BookErr.DoctorUnavailable)
    else
      let times := ledgerTimes docData.slots_booked f.call.slotDate
      if times.contains f.call.slotTime then
        (db, some BookErr.SlotTaken)
      else
        let newLedger :=
          ledgerSet docData.slots_booked f.call.slotDate
            (times ++ [f.call.slotTime])
        let db1 := writeDoctorSlots db f.call.docId newLedger
        let apt : Appointment :=
          { _id := db.nextAptId, userId := f.call.userId
            docId := f.call.docId
            slotDate := f.call.slotDate, slotTime := f.call.slotTime
            amount := docData.fees
            cancelled := false, payment := false, isCompleted := false }
        ({ db1 with
            appointments := db1.appointments ++ [apt]
            nextAptId := db.nextAptId + 1 }, none)

/-- Two overlapping `book` calls under the schedule
read₁, read₂, commit₁, commit₂ — both reads complete before either
commit, the interleaving nothing in the source prevents.  Returns the
final database and the two calls' results. -/
def runRacyPair (db : DB) (c1 c2 : BookCall) :
    DB × Option BookErr × Option BookErr :=
  let f1 := readStep db c1
  let f2 := readStep db c2
  let p1 := commitStep db f1
  let p2 := commitStep p1.1 f2
  (p2.1, p1.2, p2.2)

/-! ## The slot-uniqueness invariant -/

/-- Invariant of the slot ledger: within one doctor, one date, a given
time string appears at most once (`Nodup` on every date entry). -/
def ledgerUnique (l : List (String × List String)) : Prop :=
  ∀ e ∈ l, e.2.Nodup

instance (l : List (String × List String)) : Decidable (ledgerUnique l) := by
  unfold ledgerUnique
  infer_instance

/-- The uniqueness invariant across every doctor of the database. -/
def dbLedgersUnique (db : DB) : Prop :=
  ∀ d ∈ db.doctors, ledgerUnique d.slots_booked

instance (db : DB) : Decidable (dbLedgersUnique db) := by
  unfold dbLedgersUnique
  infer_instance

/-! ## Derived state descriptions

Named forms of the states `bookAppointment` and `cancelAppointment`
produce, used to state and chain their characterisations. -/

/-- The ledger after `bookAppointment` extends the `slotDate` entry with
`slotTime`. -/
def bookedLedger (doc : Doctor) (dt tm : String) :
    List (String × List String) :=
  ledgerSet doc.slots_booked dt (ledgerTimes doc.slots_booked dt ++ [tm])

/-- The database a successful `bookAppointment` leaves behind: the
doctor's ledger extended and the new appointment appended. -/
def bookResultDb (db : DB) (u d dt tm : String) (doc : Doctor) : DB :=
  { writeDoctorSlots db d (bookedLedger doc dt tm) with
    appointments := (writeDoctorSlots db d (bookedLedger doc dt tm)).appointments
      ++ [{ _id := db.nextAptId, userId := u, docId := d, slotDate := dt,
            slotTime := tm, amount := doc.fees, cancelled := false,
            payment := false, isCompleted := false }]
    nextAptId := db.nextAptId + 1 }

/-- The database a successful `cancelAppointment` leaves behind when the
doctor record still exists: the flag set and the slot removed. -/
def cancelResultDb (db : DB) (i : Nat) (a : Appointment) (doc : Doctor) :
    DB :=
  writeDoctorSlots { db with appointments := setCancelled db.appointments i }
    a.docId (ledgerRemove doc.slots_booked a.slotDate a.slotTime)

/-! ## Concrete fixtures -/

/-- One available doctor with an empty ledger, no users, no
appointments. -/
def dbRace : DB where
  doctors := [{ _id := "d1", available := true, fees := 100,
                slots_booked := [] }]
  users := []
  appointments := []
  nextAptId := 0

/-- First of two overlapping `book` calls on the same slot. -/
def raceCall1 : BookCall where
  userId := "u1"
  docId := "d1"
  slotDate := "2024-01-15"
  slotTime := "10:00"

/-- Second of two overlapping `book` calls on the same slot. -/
def raceCall2 : BookCall where
  userId := "u2"
  docId := "d1"
  slotDate := "2024-01-15"
  slotTime := "10:00"

/-- One available doctor, for the sequential double-booking scenario. -/
def dbSeq : DB where
  doctors := [{ _id := "d1", available := true, fees := 60,
                slots_booked := [] }]
  users := []
  appointments := []
  nextAptId := 0

/-- The state after the first successful booking on `dbSeq`. -/
def dbSeqBooked : DB :=
  (bookAppointment dbSeq "u1" "d1" "2024-01-15" "10:00").1

/-- A doctor with two distinct booked times on one date, plus the
matching appointment, for the uniqueness-invariant scenario. -/
def dbInv : DB where
  doctors := [{ _id := "d1", available := true, fees := 80,
                slots_booked := [("2024-01-15", ["10:00", "11:00"])] }]
  users := []
  appointments := [{ _id := 5, userId := "u1", docId := "d1",
                     slotDate := "2024-01-15", slotTime := "10:00",
                     amount := 80, cancelled := false, payment := false,
                     isCompleted := false }]
  nextAptId := 6

/-- An appointment occupying doctor `d1`'s 10:00 slot on 2024-01-15. -/
def aptFree : Appointment where
  _id := 5
  userId := "u1"
  docId := "d1"
  slotDate := "2024-01-15"
  slotTime := "10:00"
  amount := 80
  cancelled := false
  payment := false
  isCompleted := false

/-- A database where `aptFree`'s slot is booked in the ledger. -/
def dbFree : DB where
  doctors := [{ _id := "d1", available := true, fees := 80,
                slots_booked := [("2024-01-15", ["10:00"])] }]
  users := []
  appointments := [aptFree]
  nextAptId := 6

/-- Doctor `d1` after `aptFree` is cancelled: the date entry emptied. -/
def docFreed : Doctor where
  _id := "d1"
  available := true
  fees := 80
  slots_booked := [("2024-01-15", [])]

/-- An unavailable doctor, for the booking error paths. -/
def docGuard : Doctor where
  _id := "d2"
  available := false
  fees := 50
  slots_booked := [("2024-02-01", ["09:00"])]

/-- A database containing only the unavailable `docGuard`. -/
def dbGuard : DB where
  doctors := [docGuard]
  users := []
  appointments := []
  nextAptId := 0

/-- An appointment for the cancellation idempotence scenario. -/
def aptCxl : Appointment where
  _id := 7
  userId := "u3"
  docId := "d1"
  slotDate := "2024-03-05"
  slotTime := "12:00"
  amount := 90
  cancelled := false
  payment := false
  isCompleted := false

/-- A database holding `aptCxl` and its doctor. -/
def dbCxl : DB where
  doctors := [{ _id := "d1", available := true, fees := 90,
                slots_booked := [("2024-03-05", ["12:00"])] }]
  users := []
  appointments := [aptCxl]
  nextAptId := 8

/-- One registered user whose stored hash is of `pw123456`. -/
def dbLogin : DB where
  doctors := []
  users := [{ _id := "u1", email := "a@x.com",
              password := bcryptHash "pw123456" }]
  appointments := []
  nextAptId := 0

/-! ## List helper lemmas -/

/-- `find?` through a conditional update: updating exactly the elements
the predicate selects commutes with `find?`, provided the update
preserves the predicate. -/
theorem find?_map_ite {α : Type} (p : α → Bool) (g : α → α)
    (hp : ∀ a, p (g a) = p a) (l : List α) :
    (l.map (fun a => if p a then g a else a)).find? p
      = (l.find? p).map g := by
  induction l with
  | nil => rfl
  | cons a l ih =>
    cases h : p a with
    | true =>
      simp only [List.map_cons, if_pos h]
      rw [List.find?_cons_of_pos _ ((hp a).trans h),
        List.find?_cons_of_pos _ h]
      rfl
    | false =>
      have h' : ¬ p a = true := fun hc => Bool.false_ne_true (h ▸ hc)
      simp only [List.map_cons, if_neg h']
      rw [List.find?_cons_of_neg _ h', List.find?_cons_of_neg _ h']
      exact ih

/-- A conditional update by an idempotent, predicate-preserving function
is itself idempotent on lists. -/
theorem map_ite_idem {α : Type} (p : α → Bool) (g : α → α)
    (hp : ∀ a, p (g a) = p a) (hg : ∀ a, g (g a) = g a) (l : List α) :
    (l.map (fun a => if p a then g a else a)).map
        (fun a => if p a then g a else a)
      = l.map (fun a => if p a then g a else a) := by
  induction l with
  | nil => rfl
  | cons a l ih =>
    cases h : p a with
    | true =>
      simp only [List.map_cons, if_pos h, if_pos ((hp a).trans h), hg a, ih]
    | false =>
      have h' : ¬ p a = true := fun hc => Bool.false_ne_true (h ▸ hc)
      simp only [List.map_cons, if_neg h', ih]

/-- `find?` skips a prefix on which the predicate fails everywhere. -/
theorem find?_append_of_forall_neg {α : Type} (p : α → Bool)
    (l1 l2 : List α) (h : ∀ a ∈ l1, ¬ p a) :
    (l1 ++ l2).find? p = l2.find? p := by
  induction l1 with
  | nil => rfl
  | cons a l ih =>
    rw [List.cons_append, List.find?_cons_of_neg _ (h a (List.mem_cons_self a l))]
    exact ih (fun x hx => h x (List.mem_cons_of_mem a hx))

/-- An element appended at the end is contained. -/
theorem contains_append_self {α : Type} [BEq α] [LawfulBEq α]
    (l : List α) (a : α) : (l ++ [a]).contains a = true :=
  List.contains_iff_exists_mem_beq.mpr
    ⟨a, List.mem_append_right l (List.mem_singleton_self a), by simp⟩

/-- `contains = false` gives non-membership (lawful `BEq`). -/
theorem not_mem_of_contains_eq_false {α : Type} [BEq α] [LawfulBEq α]
    {l : List α} {a : α} (h : l.contains a = false) : a ∉ l := by
  intro hm
  have hc : l.contains a = true :=
    List.contains_iff_exists_mem_beq.mpr ⟨a, hm, by simp⟩
  rw [h] at hc
  exact Bool.false_ne_true hc

/-- Appending a fresh element preserves `Nodup`. -/
theorem nodup_append_singleton {α : Type} {l : List α} {a : α}
    (h : l.Nodup) (ha : a ∉ l) : (l ++ [a]).Nodup := by
  rw [List.nodup_append]
  refine ⟨h, List.nodup_singleton a, ?_⟩
  intro x hx hxa
  rw [List.mem_singleton] at hxa
  subst hxa
  exact ha hx

/-- Filtering twice by the same predicate filters once. -/
theorem filter_idem {α : Type} (q : α → Bool) (l : List α) :
    (l.filter q).filter q = l.filter q := by
  induction l with
  | nil => rfl
  | cons a l ih => cases h : q a <;> simp [List.filter_cons, h, ih]

/-! ## Ledger lemmas -/

/-- Reading back the entry `ledgerSet` wrote returns what was written. -/
theorem ledgerTimes_ledgerSet_self (l : List (String × List String))
    (d : String) (ts : List String) :
    ledgerTimes (ledgerSet l d ts) d = ts := by
  unfold ledgerSet
  cases h : l.any (fun e => e.1 == d) with
  | true =>
    rw [if_pos rfl]
    unfold ledgerTimes
    rw [find?_map_ite (fun e => e.1 == d) (fun e => (e.1, ts))
      (fun e => rfl) l]
    obtain ⟨e, he, hpe⟩ := List.any_eq_true.mp h
    have hs : (l.find? (fun e => e.1 == d)).isSome :=
      List.find?_isSome.mpr ⟨e, he, hpe⟩
    obtain ⟨e0, he0⟩ := Option.isSome_iff_exists.mp hs
    rw [he0]
    rfl
  | false =>
    rw [if_neg Bool.false_ne_true]
    unfold ledgerTimes
    rw [find?_append_of_forall_neg _ l _ (List.any_eq_false.mp h)]
    rw [List.find?_cons_of_pos _ (by simp)]

/-- After `ledgerRemove`, the removed time is gone from that date's
entry (in every case: present entry, filtered; absent entry, empty). -/
theorem not_mem_ledgerTimes_ledgerRemove
    (l : List (String × List String)) (d t : String) :
    t ∉ ledgerTimes (ledgerRemove l d t) d := by
  unfold ledgerRemove ledgerTimes
  rw [find?_map_ite (fun e => e.1 == d)
    (fun e => (e.1, e.2.filter (fun x => !(x == t)))) (fun e => rfl) l]
  cases h : l.find? (fun e => e.1 == d) with
  | none => simp
  | some e =>
    intro hm
    have hm' : t ∈ e.2.filter (fun x => !(x == t)) := hm
    have h2 := (List.mem_filter.mp hm').2
    simp at h2

/-- Removing the same time twice removes it once. -/
theorem ledgerRemove_idem (l : List (String × List String)) (d t : String) :
    ledgerRemove (ledgerRemove l d t) d t = ledgerRemove l d t := by
  unfold ledgerRemove
  exact map_ite_idem (fun e => e.1 == d)
    (fun e => (e.1, e.2.filter (fun x => !(x == t))))
    (fun e => rfl)
    (fun e => by simp [filter_idem])
    l

/-- `findById` after `findByIdAndUpdate` of the slot ledger. -/
theorem findDoctor_writeDoctorSlots_self (db : DB) (i : String)
    (L : List (String × List String)) :
    findDoctor (writeDoctorSlots db i L) i
      = (findDoctor db i).map (fun d => { d with slots_booked := L }) := by
  unfold findDoctor writeDoctorSlots
  exact find?_map_ite (fun d => d._id == i)
    (fun d => { d with slots_booked := L }) (fun d => rfl) db.doctors

/-- Writing the same ledger twice writes it once. -/
theorem writeDoctorSlots_idem (db : DB) (i : String)
    (L : List (String × List String)) :
    writeDoctorSlots (writeDoctorSlots db i L) i L
      = writeDoctorSlots db i L := by
  unfold writeDoctorSlots
  rw [map_ite_idem (fun d => d._id == i)
    (fun d => { d with slots_booked := L }) (fun d => rfl) (fun d => rfl)
    db.doctors]

/-- Locating the appointment after its `cancelled` flag was set. -/
theorem setCancelled_find? (l : List Appointment) (i : Nat) :
    (setCancelled l i).find? (fun a => a._id == i)
      = (l.find? (fun a => a._id == i)).map
          (fun a => { a with cancelled := true }) := by
  unfold setCancelled
  exact find?_map_ite (fun a => a._id == i)
    (fun a => { a with cancelled := true }) (fun a => rfl) l

/-- Setting the `cancelled` flag twice sets it once. -/
theorem setCancelled_idem (l : List Appointment) (i : Nat) :
    setCancelled (setCancelled l i) i = setCancelled l i := by
  unfold setCancelled
  exact map_ite_idem (fun a => a._id == i)
    (fun a => { a with cancelled := true }) (fun a => rfl) (fun a => rfl) l

/-! ## Lemmas on the slot-uniqueness invariant -/

/-- Date entries of a unique ledger are `Nodup`. -/
theorem nodup_ledgerTimes {l : List (String × List String)}
    (h : ledgerUnique l) (d : String) : (ledgerTimes l d).Nodup := by
  unfold ledgerTimes
  cases hf : l.find? (fun e => e.1 == d) with
  | none => exact List.nodup_nil
  | some e => exact h e (List.mem_of_find?_eq_some hf)

/-- `ledgerSet` with a `Nodup` value preserves ledger uniqueness. -/
theorem ledgerUnique_ledgerSet {l : List (String × List String)}
    (h : ledgerUnique l) {v : List String} (hv : v.Nodup) (d : String) :
    ledgerUnique (ledgerSet l d v) := by
  unfold ledgerSet
  cases hany : l.any (fun e => e.1 == d) with
  | true =>
    rw [if_pos rfl]
    intro e he
    obtain ⟨a, ha, rfl⟩ := List.mem_map.mp he
    cases hc : a.1 == d with
    | true => rw [if_pos rfl]; exact hv
    | false => rw [if_neg Bool.false_ne_true]; exact h a ha
  | false =>
    rw [if_neg Bool.false_ne_true]
    intro e he
    rcases List.mem_append.mp he with h1 | h2
    · exact h e h1
    · rw [List.mem_singleton] at h2
      subst h2
      exact hv

/-- `ledgerRemove` preserves ledger uniqueness. -/
theorem ledgerUnique_ledgerRemove {l : List (String × List String)}
    (h : ledgerUnique l) (d t : String) :
    ledgerUnique (ledgerRemove l d t) := by
  unfold ledgerRemove
  intro e he
  obtain ⟨a, ha, rfl⟩ := List.mem_map.mp he
  cases hc : a.1 == d with
  | true => rw [if_pos rfl]; exact (h a ha).filter _
  | false => rw [if_neg Bool.false_ne_true]; exact h a ha

/-- Writing a unique ledger into one doctor preserves the database-wide
invariant. -/
theorem dbLedgersUnique_writeDoctorSlots {db : DB}
    (h : dbLedgersUnique db) {L : List (String × List String)}
    (hL : ledgerUnique L) (i : String) :
    dbLedgersUnique (writeDoctorSlots db i L) := by
  unfold writeDoctorSlots
  intro d hd
  obtain ⟨a, ha, rfl⟩ := List.mem_map.mp hd
  cases hc : a._id == i with
  | true => rw [if_pos rfl]; exact hL
  | false => rw [if_neg Bool.false_ne_true]; exact h a ha

/-! ## Characterisations of booking and cancellation -/

/-- `contains = true` gives membership (lawful `BEq`). -/
theorem mem_of_contains_eq_true {α : Type} [BEq α] [LawfulBEq α]
    {l : List α} {a : α} (h : l.contains a = true) : a ∈ l := by
  obtain ⟨x, hx, hbeq⟩ := List.contains_iff_exists_mem_beq.mp h
  exact (eq_of_beq hbeq).symm ▸ hx

/-- The booked ledger's entry for the booked date is the old entry plus
the booked time. -/
theorem ledgerTimes_bookedLedger (doc : Doctor) (dt tm : String) :
    ledgerTimes (bookedLedger doc dt tm) dt
      = ledgerTimes doc.slots_booked dt ++ [tm] := by
  unfold bookedLedger
  exact ledgerTimes_ledgerSet_self doc.slots_booked dt _

/-- Replacing the appointments collection does not affect doctor
lookups. -/
theorem findDoctor_set_appointments (db : DB) (apts : List Appointment)
    (i : String) :
    findDoctor { db with appointments := apts } i = findDoctor db i := rfl

/-- A `book` call whose guards and slot check pass produces exactly
`bookResultDb` and no error. -/
theorem bookAppointment_eq_of (db : DB) (u d dt tm : String)
    (docData : Doctor) (hf : findDoctor db d = some docData)
    (hav : docData.available = true)
    (hnm : tm ∉ ledgerTimes docData.slots_booked dt) :
    bookAppointment db u d dt tm = (bookResultDb db u d dt tm docData, none) := by
  simp [bookAppointment, bookResultDb, bookedLedger, hf, hav, hnm]

/-- After a successful booking the stored doctor carries the extended
ledger. -/
theorem findDoctor_bookResultDb (db : DB) (u d dt tm : String)
    (docData : Doctor) (hf : findDoctor db d = some docData) :
    findDoctor (bookResultDb db u d dt tm docData) d
      = some { docData with slots_booked := bookedLedger docData dt tm } := by
  show findDoctor (writeDoctorSlots db d (bookedLedger docData dt tm)) d = _
  rw [findDoctor_writeDoctorSlots_self, hf]
  rfl

/-- A `cancel` call on an existing appointment whose doctor record has
vanished only sets the flag. -/
theorem cancelAppointment_eq_noDoc (db : DB) (i : Nat) (a : Appointment)
    (ha : db.appointments.find? (fun x => x._id == i) = some a)
    (hfd : findDoctor db a.docId = none) :
    cancelAppointment db i
      = ({ db with appointments := setCancelled db.appointments i }, none) := by
  simp [cancelAppointment, ha, hfd, findDoctor_set_appointments]

/-- A `cancel` call on an existing appointment whose doctor exists
produces exactly `cancelResultDb` and no error. -/
theorem cancelAppointment_eq_doc (db : DB) (i : Nat) (a : Appointment)
    (doc : Doctor)
    (ha : db.appointments.find? (fun x => x._id == i) = some a)
    (hfd : findDoctor db a.docId = some doc) :
    cancelAppointment db i = (cancelResultDb db i a doc, none) := by
  simp [cancelAppointment, ha, hfd, findDoctor_set_appointments, cancelResultDb]

/-- Cancelling the already-cancelled appointment recomputes the very same
state: the flag set and the ledger removal are both idempotent. -/
theorem cancelResultDb_idem (db : DB) (i : Nat) (a : Appointment)
    (doc : Doctor) :
    cancelResultDb (cancelResultDb db i a doc) i { a with cancelled := true }
        { doc with slots_booked :=
            ledgerRemove doc.slots_booked a.slotDate a.slotTime }
      = cancelResultDb db i a doc := by
  show writeDoctorSlots
      { writeDoctorSlots { db with appointments := setCancelled db.appointments i } a.docId (ledgerRemove doc.slots_booked a.slotDate a.slotTime) with
        appointments := setCancelled (setCancelled db.appointments i) i }
      a.docId
      (ledgerRemove (ledgerRemove doc.slots_booked a.slotDate a.slotTime)
        a.slotDate a.slotTime)
    = writeDoctorSlots { db with appointments := setCancelled db.appointments i }
        a.docId (ledgerRemove doc.slots_booked a.slotDate a.slotTime)
  rw [setCancelled_idem, ledgerRemove_idem]
  exact writeDoctorSlots_idem
    { db with appointments := setCancelled db.appointments i } a.docId
    (ledgerRemove doc.slots_booked a.slotDate a.slotTime)

/-- Faithfulness of the two-phase decomposition: a `book` call whose read
and commit run back to back with no interleaving is exactly
`bookAppointment`. -/
theorem bookAppointment_eq_read_commit (db : DB) (c : BookCall) :
    bookAppointment db c.userId c.docId c.slotDate c.slotTime
      = commitStep db (readStep db c) := rfl

/-! ## Claim theorems -/

/-- C1: the claim says that for concurrent `book` calls on the same slot
at most one succeeds and the rest fail with `SlotTaken`.  The source's
unguarded read-modify-write violates this: under the schedule in which
both calls read the doctor document before either writes, both calls
succeed (`none` error for each) and two non-cancelled appointments for
the identical (doctor, date, time) slot are created. -/
theorem racy_overlapping_books_both_succeed :
    (runRacyPair dbRace raceCall1 raceCall2).2.1 = none ∧
    (runRacyPair dbRace raceCall1 raceCall2).2.2 = none ∧
    ((runRacyPair dbRace raceCall1 raceCall2).1.appointments.filter
      (fun a => a.docId == "d1" && a.slotDate == "2024-01-15"
        && a.slotTime == "10:00" && !a.cancelled)).length = 2 :=
  ⟨rfl, rfl, rfl⟩

/-- C2: after `book(D,U,T,S)` succeeds, a second sequential
`book(D,U2,T,S)` on the same (doctor, date, time) triple fails with
`SlotTaken`, for any user. -/
theorem booked_slot_rejects_rebooking (db db' : DB) (u u2 d dt tm : String)
    (h : bookAppointment db u d dt tm = (db', none)) :
    (bookAppointment db' u2 d dt tm).2 = some BookErr.SlotTaken := by
  cases hf : findDoctor db d with
  | none => simp [bookAppointment, hf] at h
  | some docData =>
    cases hav : docData.available with
    | false => simp [bookAppointment, hf, hav] at h
    | true =>
      cases hc : (ledgerTimes docData.slots_booked dt).contains tm with
      | true =>
        have hmem : tm ∈ ledgerTimes docData.slots_booked dt :=
          mem_of_contains_eq_true hc
        simp [bookAppointment, hf, hav, hmem] at h
      | false =>
        have hnm : tm ∉ ledgerTimes docData.slots_booked dt :=
          not_mem_of_contains_eq_false hc
        have heq := bookAppointment_eq_of db u d dt tm docData hf hav hnm
        have hdb' : bookResultDb db u d dt tm docData = db' :=
          congrArg Prod.fst (heq.symm.trans h)
        subst hdb'
        simp [bookAppointment, findDoctor_bookResultDb db u d dt tm docData hf,
          hav, ledgerTimes_bookedLedger]

/-- Witness for C2 at a concrete database: booking `d1`'s 10:00 slot on
2024-01-15 succeeds once, and the identical second booking fails with
`SlotTaken`. -/
theorem booked_slot_rejects_rebooking_witness :
    bookAppointment dbSeq "u1" "d1" "2024-01-15" "10:00"
      = (dbSeqBooked, none) ∧
    (bookAppointment dbSeqBooked "u2" "d1" "2024-01-15" "10:00").2
      = some BookErr.SlotTaken :=
  ⟨rfl, booked_slot_rejects_rebooking dbSeq dbSeqBooked "u1" "u2" "d1"
    "2024-01-15" "10:00" rfl⟩

/-- C3: starting from a database whose ledgers have no duplicated time
on any (doctor, date), both `book` (which appends a time only after the
absence check) and `cancel` (which only removes) preserve the
invariant — on their success and failure paths alike. -/
theorem book_cancel_preserve_slot_uniqueness (db : DB)
    (h : dbLedgersUnique db) :
    (∀ u d dt tm, dbLedgersUnique (bookAppointment db u d dt tm).1) ∧
    (∀ i, dbLedgersUnique (cancelAppointment db i).1) := by
  constructor
  · intro u d dt tm
    cases hf : findDoctor db d with
    | none =>
      have heq : bookAppointment db u d dt tm
          = (db, some BookErr.DoctorNotFound) := by
        simp [bookAppointment, hf]
      rw [heq]
      exact h
    | some doc =>
      cases hav : doc.available with
      | false =>
        have heq : bookAppointment db u d dt tm
            = (db, some BookErr.DoctorUnavailable) := by
          simp [bookAppointment, hf, hav]
        rw [heq]
        exact h
      | true =>
        cases hc : (ledgerTimes doc.slots_booked dt).contains tm with
        | true =>
          have hmem := mem_of_contains_eq_true hc
          have heq : bookAppointment db u d dt tm
              = (db, some BookErr.SlotTaken) := by
            simp [bookAppointment, hf, hav, hmem]
          rw [heq]
          exact h
        | false =>
          have hnm := not_mem_of_contains_eq_false hc
          rw [bookAppointment_eq_of db u d dt tm doc hf hav hnm]
          dsimp only
          have hdoc : ledgerUnique doc.slots_booked :=
            h doc (List.mem_of_find?_eq_some hf)
          have hL : ledgerUnique (bookedLedger doc dt tm) := by
            unfold bookedLedger
            exact ledgerUnique_ledgerSet hdoc
              (nodup_append_singleton (nodup_ledgerTimes hdoc dt) hnm) dt
          exact dbLedgersUnique_writeDoctorSlots h hL d
  · intro i
    cases ha : db.appointments.find? (fun x => x._id == i) with
    | none =>
      have heq : cancelAppointment db i = (db, some CancelErr.NotFound) := by
        simp [cancelAppointment, ha]
      rw [heq]
      exact h
    | some a =>
      cases hfd : findDoctor db a.docId with
      | none =>
        rw [cancelAppointment_eq_noDoc db i a ha hfd]
        dsimp only
        exact h
      | some doc =>
        rw [cancelAppointment_eq_doc db i a doc ha hfd]
        dsimp only
        have hdoc : ledgerUnique doc.slots_booked :=
          h doc (List.mem_of_find?_eq_some hfd)
        exact dbLedgersUnique_writeDoctorSlots h
          (ledgerUnique_ledgerRemove hdoc a.slotDate a.slotTime) a.docId

/-- Witness for C3 at a concrete database holding booked slots: the
invariant holds initially and is preserved by a booking and by a
cancellation. -/
theorem book_cancel_preserve_slot_uniqueness_witness :
    dbLedgersUnique dbInv ∧
    dbLedgersUnique (bookAppointment dbInv "u2" "d1" "2024-01-15" "12:00").1 ∧
    dbLedgersUnique (cancelAppointment dbInv 5).1 :=
  ⟨by decide,
   (book_cancel_preserve_slot_uniqueness dbInv (by decide)).1 "u2" "d1"
     "2024-01-15" "12:00",
   (book_cancel_preserve_slot_uniqueness dbInv (by decide)).2 5⟩

/-- C4: after `cancel` succeeds on an appointment, the appointment's time
is no longer in the doctor's ledger entry for that date, and — provided
the doctor still exists and is available — a subsequent `book` of the
same (doctor, date, time) by any user succeeds. -/
theorem cancel_frees_slot_for_rebooking (db : DB) (i : Nat)
    (a : Appointment)
    (ha : db.appointments.find? (fun x => x._id == i) = some a)
    (u2 : String) :
    (cancelAppointment db i).2 = none ∧
    ∀ doc', findDoctor (cancelAppointment db i).1 a.docId = some doc' →
      a.slotTime ∉ ledgerTimes doc'.slots_booked a.slotDate ∧
      (doc'.available = true →
        (bookAppointment (cancelAppointment db i).1 u2 a.docId a.slotDate
          a.slotTime).2 = none) := by
  cases hfd : findDoctor db a.docId with
  | none =>
    have heq := cancelAppointment_eq_noDoc db i a ha hfd
    rw [heq]
    dsimp only
    refine ⟨rfl, ?_⟩
    intro doc' hd'
    rw [findDoctor_set_appointments, hfd] at hd'
    cases hd'
  | some doc =>
    have heq := cancelAppointment_eq_doc db i a doc ha hfd
    rw [heq]
    dsimp only
    refine ⟨rfl, ?_⟩
    intro doc' hd'
    have hd2 : findDoctor (cancelResultDb db i a doc) a.docId
        = some { doc with slots_booked := ledgerRemove doc.slots_booked a.slotDate a.slotTime } := by
      show findDoctor (writeDoctorSlots
        { db with appointments := setCancelled db.appointments i }
        a.docId (ledgerRemove doc.slots_booked a.slotDate a.slotTime))
        a.docId = _
      rw [findDoctor_writeDoctorSlots_self, findDoctor_set_appointments, hfd]
      rfl
    rw [hd2] at hd'
    injection hd' with hd''
    subst hd''
    constructor
    · exact not_mem_ledgerTimes_ledgerRemove doc.slots_booked a.slotDate
        a.slotTime
    · intro hav
      have hb := bookAppointment_eq_of (cancelResultDb db i a doc) u2 a.docId
        a.slotDate a.slotTime _ hd2 hav
        (not_mem_ledgerTimes_ledgerRemove doc.slots_booked a.slotDate
          a.slotTime)
      rw [hb]

/-- Witness for C4 at a concrete database: cancelling appointment 5 frees
`d1`'s 10:00 slot on 2024-01-15 and the rebooking by `u2` succeeds. -/
theorem cancel_frees_slot_for_rebooking_witness :
    dbFree.appointments.find? (fun x => x._id == 5) = some aptFree ∧
    (cancelAppointment dbFree 5).2 = none ∧
    findDoctor (cancelAppointment dbFree 5).1 "d1" = some docFreed ∧
    "10:00" ∉ ledgerTimes docFreed.slots_booked "2024-01-15" ∧
    (docFreed.available = true →
      (bookAppointment (cancelAppointment dbFree 5).1 "u2" "d1" "2024-01-15"
        "10:00").2 = none) := by
  refine ⟨rfl, (cancel_frees_slot_for_rebooking dbFree 5 aptFree rfl "u2").1,
    rfl, ?_, ?_⟩
  · exact ((cancel_frees_slot_for_rebooking dbFree 5 aptFree rfl "u2").2
      docFreed rfl).1
  · exact ((cancel_frees_slot_for_rebooking dbFree 5 aptFree rfl "u2").2
      docFreed rfl).2

/-- C5: `book` against an absent doctor fails `DoctorNotFound`, and
against an existing doctor with `available = false` fails
`DoctorUnavailable`; in both cases the returned state is the input
database itself, so the slot ledger is untouched. -/
theorem book_failure_paths_leave_state_unchanged (db : DB)
    (u d dt tm : String) :
    (findDoctor db d = none →
      bookAppointment db u d dt tm = (db, some BookErr.DoctorNotFound)) ∧
    (∀ doc, findDoctor db d = some doc → doc.available = false →
      bookAppointment db u d dt tm = (db, some BookErr.DoctorUnavailable)) := by
  constructor
  · intro hf
    simp [bookAppointment, hf]
  · intro doc hf hav
    simp [bookAppointment, hf, hav]

/-- Witness for C5 at a concrete database: booking an unknown doctor id
and booking the unavailable `docGuard` both fail with the stated errors
and leave the database unchanged. -/
theorem book_failure_paths_leave_state_unchanged_witness :
    findDoctor dbGuard "ghost" = none ∧
    bookAppointment dbGuard "u9" "ghost" "2024-02-01" "09:00"
      = (dbGuard, some BookErr.DoctorNotFound) ∧
    findDoctor dbGuard "d2" = some docGuard ∧
    docGuard.available = false ∧
    bookAppointment dbGuard "u9" "d2" "2024-02-01" "10:00"
      = (dbGuard, some BookErr.DoctorUnavailable) :=
  ⟨rfl,
   (book_failure_paths_leave_state_unchanged dbGuard "u9" "ghost"
     "2024-02-01" "09:00").1 rfl,
   rfl, rfl,
   (book_failure_paths_leave_state_unchanged dbGuard "u9" "d2"
     "2024-02-01" "10:00").2 docGuard rfl rfl⟩

/-- C6: `cancel` of an id matching no appointment fails `NotFound` and
leaves the database unchanged; `cancel` of an existing appointment
succeeds, and cancelling again succeeds and reproduces exactly the state
after the first cancel. -/
theorem cancel_notfound_and_idempotent (db : DB) (i : Nat) :
    (db.appointments.find? (fun x => x._id == i) = none →
      cancelAppointment db i = (db, some CancelErr.NotFound)) ∧
    (∀ a, db.appointments.find? (fun x => x._id == i) = some a →
      (cancelAppointment db i).2 = none ∧
      cancelAppointment (cancelAppointment db i).1 i
        = ((cancelAppointment db i).1, none)) := by
  constructor
  · intro hn
    simp [cancelAppointment, hn]
  · intro a ha
    cases hfd : findDoctor db a.docId with
    | none =>
      have heq := cancelAppointment_eq_noDoc db i a ha hfd
      rw [heq]
      refine ⟨rfl, ?_⟩
      have ha' : ({ db with appointments := setCancelled db.appointments i
          }).appointments.find? (fun x => x._id == i)
          = some { a with cancelled := true } := by
        show (setCancelled db.appointments i).find? (fun x => x._id == i) = _
        rw [setCancelled_find?, ha]
        rfl
      have hfd' : findDoctor
          { db with appointments := setCancelled db.appointments i }
          ({ a with cancelled := true }).docId = none := hfd
      have heq2 := cancelAppointment_eq_noDoc _ i _ ha' hfd'
      rw [heq2]
      have hsc : setCancelled ({ db with
          appointments := setCancelled db.appointments i }).appointments i
          = ({ db with appointments := setCancelled db.appointments i
            }).appointments :=
        setCancelled_idem db.appointments i
      rw [hsc]
    | some doc =>
      have heq := cancelAppointment_eq_doc db i a doc ha hfd
      rw [heq]
      refine ⟨rfl, ?_⟩
      have ha' : (cancelResultDb db i a doc).appointments.find?
          (fun x => x._id == i) = some { a with cancelled := true } := by
        show (setCancelled db.appointments i).find? (fun x => x._id == i) = _
        rw [setCancelled_find?, ha]
        rfl
      have hfd' : findDoctor (cancelResultDb db i a doc)
          ({ a with cancelled := true }).docId
          = some { doc with slots_booked := ledgerRemove doc.slots_booked a.slotDate a.slotTime } := by
        show findDoctor (writeDoctorSlots
          { db with appointments := setCancelled db.appointments i }
          a.docId (ledgerRemove doc.slots_booked a.slotDate a.slotTime))
          a.docId = _
        rw [findDoctor_writeDoctorSlots_self, findDoctor_set_appointments, hfd]
        rfl
      have heq2 := cancelAppointment_eq_doc _ i _ _ ha' hfd'
      rw [heq2, cancelResultDb_idem]

/-- Witness for C6 at a concrete database: id 99 matches nothing and
fails `NotFound` unchanged; cancelling appointment 7 succeeds and
cancelling it again returns the same state with no error. -/
theorem cancel_notfound_and_idempotent_witness :
    dbCxl.appointments.find? (fun x => x._id == 99) = none ∧
    cancelAppointment dbCxl 99 = (dbCxl, some CancelErr.NotFound) ∧
    dbCxl.appointments.find? (fun x => x._id == 7) = some aptCxl ∧
    (cancelAppointment dbCxl 7).2 = none ∧
    cancelAppointment (cancelAppointment dbCxl 7).1 7
      = ((cancelAppointment dbCxl 7).1, none) :=
  ⟨rfl, (cancel_notfound_and_idempotent dbCxl 99).1 rfl, rfl,
   ((cancel_notfound_and_idempotent dbCxl 7).2 aptCxl rfl).1,
   ((cancel_notfound_and_idempotent dbCxl 7).2 aptCxl rfl).2⟩

/-- C7: the claim says a doctor-issued token presented on the user
channel is rejected with Unauthorized by a principal-kind discriminator
check.  The source's `authUser` performs no such check: any token signed
with the shared `JWT_SECRET` — including every doctor token, which has
the identical `{ id }` payload shape — verifies, has its id attached as
`req.body.userId`, and is passed through to the handler. -/
theorem doctor_token_accepted_by_authUser :
    (∀ secret docId : String,
      authUser (some (signIdToken secret docId)) secret
        = AuthOutcome.next (some docId)) ∧
    authUser (some (signIdToken "jwt-secret" "doc1")) "jwt-secret"
      = AuthOutcome.next (some "doc1") := by
  constructor
  · intro secret docId
    simp [authUser, signIdToken, payloadId]
  · rfl

/-- C8: the doctor dashboard's total earnings, computed by the modelled
ledger scan, equal the sum of `amount` over exactly the appointments of
that doctor with `cancelled = false` and `payment = true`; the admin
figure is the same sum over the whole ledger. -/
theorem dashboard_earnings_eq_filtered_sum (apts : List Appointment)
    (docId : String) :
    doctorEarnings apts docId
      = ((apts.filter (fun a => a.docId == docId && !a.cancelled
            && a.payment)).map (fun a => a.amount)).sum ∧
    adminEarnings apts
      = ((apts.filter (fun a => !a.cancelled && a.payment)).map
          (fun a => a.amount)).sum := by
  constructor
  · induction apts with
    | nil => rfl
    | cons a rest ih =>
      cases hcond : a.docId == docId && !a.cancelled && a.payment with
      | true => simp [doctorEarnings, List.filter_cons, hcond, ih]
      | false => simp [doctorEarnings, List.filter_cons, hcond, ih]
  · induction apts with
    | nil => rfl
    | cons a rest ih =>
      cases hcond : !a.cancelled && a.payment with
      | true => simp [adminEarnings, List.filter_cons, hcond, ih]
      | false => simp [adminEarnings, List.filter_cons, hcond, ih]

/-- C9: the claim says login failures are reported to the caller as
`NotFound` / `SecretMismatch`.  The source's `loginUser` does neither:
with a wrong password the handler has no `else` branch and sends no
response at all, and with an unknown email the null lookup result makes
`user.password` throw. -/
theorem loginUser_failure_paths_unreported :
    loginUser dbLogin "sec" "a@x.com" "wrongpw" = LoginOutcome.noResponse ∧
    loginUser dbLogin "sec" "b@x.com" "pw123456"
      = LoginOutcome.thrown "Cannot read properties of null" :=
  ⟨rfl, rfl⟩

/-- C10: the claim says every failure — in particular a missing or
invalid `atoken` at the admin verifier — yields a
`{success:false, message}` JSON response rather than a thrown error.
The source's `authAdmin` calls `jwt.verify` outside any `try/catch` and
without a missing-header check, so both a missing `atoken` and a token
with a bad signature escape as uncaught exceptions. -/
theorem authAdmin_missing_or_invalid_token_throws :
    (∀ secret adminEmail adminPassword : String,
      authAdmin none secret adminEmail adminPassword
        = AuthOutcome.thrown "jwt must be provided") ∧
    authAdmin (some { payload := Payload.obj "u1", secret := "other" })
      "jwt-secret" "admin@example.com" "admin123"
      = AuthOutcome.thrown "invalid signature" := by
  constructor
  · intro secret adminEmail adminPassword
    rfl
  · rfl

end HealthBridge
